import Mathlib

/-!
Verification of the airline_graph temporal-state-reconstruction engine.

This file gives a shallow embedding, in Lean 4, of the core operations of the
repository (timestamp parsing, per-airport event timeline construction,
point-in-time and interval queries, and the operations resource-connection
graph), and proves or refutes the specification claims about them.

Modelling conventions:
- UTC instants are modelled as `Int` (seconds since the epoch); only order and
  difference of instants matter to the code under study.
- Delay values are `Int` minutes, exactly as produced by the loader.
- Real-valued running averages and percentages are modelled as exact rationals
  (`Rat`).  The source additionally applies a two-decimal presentation
  rounding (Python round with ndigits 2, a binary-floating-point operation)
  when it stores these values; that display rounding is outside the numeric
  model used here.
- Python dictionaries with optional keys (attribute bags whose None entries
  are stripped) are modelled as structures with `Option` fields.
- Timestamps serialized as ISO-8601 strings and reparsed are modelled by the
  instant itself: serialization of a valid instant always reparses to the
  same instant in the source.
-/

/-- Python `a or b` on two optional values: `None` is the only falsy value
involved (datetime objects are always truthy), so the result is `a` when
present, otherwise `b`. -/
def pyOr (a b : Option Int) : Option Int :=
  match a with
  | some x => some x
  | none => b

/-- Whitespace stripping of Python str.strip with no argument, on the
character list of the string (the inputs under study only carry ASCII
whitespace). -/
def pyStripList (l : List Char) : List Char :=
  ((l.dropWhile Char.isWhitespace).reverse.dropWhile Char.isWhitespace).reverse

/-- Python s.strip(). -/
def pyStrip (s : String) : String :=
  ⟨pyStripList s.data⟩

/-- Python s.upper() (the inputs under study only carry ASCII letters). -/
def pyUpper (s : String) : String :=
  ⟨s.data.map Char.toUpper⟩

/-- Python s.endswith(suffix). -/
def pyEndsWith (s suffix : String) : Bool :=
  suffix.data.isSuffixOf s.data

/-- Python membership test of a single character, c in s. -/
def pyContainsChar (s : String) (c : Char) : Bool :=
  s.data.contains c

/-- Python s.replace(pat, repl) for a single-character pattern, the only
shape of pattern the source uses. -/
def pyReplaceChar (s : String) (c : Char) (repl : String) : String :=
  ⟨(s.data.map (fun ch => if ch = c then repl.data else [ch])).flatten⟩

/-- Python s[:-1]. -/
def pyDropLast (s : String) : String :=
  ⟨s.data.dropLast⟩

/-- Python s[-n:]. -/
def pyTakeRight (s : String) (n : Nat) : String :=
  ⟨s.data.drop (s.data.length - n)⟩

/-- Python s.split(c)[0] for a single-character separator: the prefix of the
string before the first occurrence of the separator. -/
def pySplitFirst (s : String) (c : Char) : String :=
  ⟨s.data.takeWhile (fun ch => ch ≠ c)⟩

/-- Kind of an airport event, from create_event_level_snapshots in
build_graph.py: a flight produces a departure event at its origin and an
arrival event at its destination. -/
inductive EventType where
  | departure
  | arrival
deriving DecidableEq, Repr

/-- A flight record as produced by load_flights (load_sample_data.py) and as
stored in the attribute bag of a flight edge by create_flight_edges
(build_graph.py).  Optional fields are the nullable temporal attributes; the
edge attribute bag strips None values, which is observationally the same as
carrying the `Option`. -/
structure Flight where
  flight_id : String
  origin : String
  destination : String
  scheduled_departure_gate : Option Int
  actual_departure_gate : Option Int
  scheduled_arrival_gate : Option Int
  actual_arrival_gate : Option Int
  departure_delay_minutes : Option Int
  arrival_delay_minutes : Option Int
deriving DecidableEq, Repr

/-- Best-available departure instant of a flight: actual preferred, scheduled
as fallback (the idiom `actual or scheduled` in the source). -/
def Flight.bestDeparture (f : Flight) : Option Int :=
  pyOr f.actual_departure_gate f.scheduled_departure_gate

/-- Best-available arrival instant of a flight: actual preferred, scheduled
as fallback. -/
def Flight.bestArrival (f : Flight) : Option Int :=
  pyOr f.actual_arrival_gate f.scheduled_arrival_gate

/-- One candidate event of the timeline builder (the events list built in
create_event_level_snapshots, lines 140-177 of build_graph.py).  A departure
event carries the flight's departure delay, an arrival event its arrival
delay; those are the only fields of the attached flight the replay loop
consults. -/
structure AirportEvent where
  airport : String
  event_type : EventType
  timestamp : Int
  flight_id : String
  delay : Option Int
deriving DecidableEq, Repr

/-- Candidate events contributed by one flight: a departure event at the
origin when a best-available departure instant exists, then an arrival event
at the destination when a best-available arrival instant exists.  Flights
with a missing (empty) origin or destination are skipped. -/
def eventsOfFlight (f : Flight) : List AirportEvent :=
  if f.origin = "" ∨ f.destination = "" then []
  else
    (match f.bestDeparture with
      | some t => [⟨f.origin, .departure, t, f.flight_id, f.departure_delay_minutes⟩]
      | none => []) ++
    (match f.bestArrival with
      | some t => [⟨f.destination, .arrival, t, f.flight_id, f.arrival_delay_minutes⟩]
      | none => [])

/-- The global event list over all flights, in scan order. -/
def collectEvents (flights : List Flight) : List AirportEvent :=
  (flights.map eventsOfFlight).flatten

/-- Comparator for the timestamp sort of the event list (Python list.sort
with the timestamp key; list.sort is a stable mergesort). -/
def eventLE (a b : AirportEvent) : Bool :=
  decide (a.timestamp ≤ b.timestamp)

/-- Per-airport running accumulator of the replay loop (airport_cumulative in
create_event_level_snapshots): counts plus the lists of delay samples seen so
far. -/
structure AirportAcc where
  total_departures : Nat
  total_arrivals : Nat
  departure_delays : List Int
  arrival_delays : List Int
deriving DecidableEq, Repr

/-- The defaultdict initial value of the accumulator. -/
def initAcc : AirportAcc :=
  ⟨0, 0, [], []⟩

/-- Accumulator update for one event (lines 208-216 of build_graph.py): bump
the count of the event kind and append the delay sample when the event
carries one. -/
def accStep (acc : AirportAcc) (e : AirportEvent) : AirportAcc :=
  match e.event_type with
  | .departure =>
    { acc with
      total_departures := acc.total_departures + 1
      departure_delays := acc.departure_delays ++
        (match e.delay with | some d => [d] | none => []) }
  | .arrival =>
    { acc with
      total_arrivals := acc.total_arrivals + 1
      arrival_delays := acc.arrival_delays ++
        (match e.delay with | some d => [d] | none => []) }

/-- The cumulative mapping stored in a snapshot (lines 241-248 of
build_graph.py).  Averages and percentages are exact rationals here; the
source rounds them to two decimals for display when storing. -/
structure Cumulative where
  total_departures : Nat
  total_arrivals : Nat
  avg_departure_delay : Rat
  avg_arrival_delay : Rat
  on_time_departure_pct : Rat
  on_time_arrival_pct : Rat
deriving DecidableEq, Repr

/-- Average of a list of delay samples, 0 when there are no samples. -/
def avgOf (delays : List Int) : Rat :=
  if delays = [] then 0 else (delays.sum : Rat) / (delays.length : Rat)

/-- Number of delay samples classified on-time: strict comparison, absolute
delay under 15 minutes (line 230 of build_graph.py). -/
def onTimeCount (delays : List Int) : Nat :=
  delays.countP (fun d => decide (|d| < 15))

/-- On-time percentage: on-time sample count over the total event count of
that kind, times 100, and 0 when that count is 0. -/
def pctOf (onTime total : Nat) : Rat :=
  if 0 < total then ((onTime : Rat) / (total : Rat)) * 100 else 0

/-- Rounding of a rational to the nearest integer with ties to even, the
rounding rule of Python round(). -/
def roundHalfEven (q : Rat) : Int :=
  let f := ⌊q⌋
  let frac := q - (f : Rat)
  if frac < 1 / 2 then f
  else if 1 / 2 < frac then f + 1
  else if f % 2 = 0 then f else f + 1

/-- Python round(x, 2): rounding to two decimal places, ties to even.  The
source applies it to binary doubles, where an exact decimal tie can sit on
either side of the nearest double; that float-representation effect is
outside this numeric model, which rounds the exact rational. -/
def round2 (q : Rat) : Rat :=
  (roundHalfEven (q * 100) : Rat) / 100

/-- Cumulative values derived from the accumulator, exactly the computation
of lines 218-248 of build_graph.py: counts are stored as computed, while the
averages and percentages are stored rounded to two decimal places (the
round(x, 2) calls of lines 244-247). -/
def computeCumulative (acc : AirportAcc) : Cumulative :=
  { total_departures := acc.total_departures
    total_arrivals := acc.total_arrivals
    avg_departure_delay := round2 (avgOf acc.departure_delays)
    avg_arrival_delay := round2 (avgOf acc.arrival_delays)
    on_time_departure_pct :=
      round2 (pctOf (onTimeCount acc.departure_delays) acc.total_departures)
    on_time_arrival_pct :=
      round2 (pctOf (onTimeCount acc.arrival_delays) acc.total_arrivals) }

/-- The incremental mapping of a snapshot: only the fields changed by this
single event are present (lines 197-206 of build_graph.py). -/
structure Incremental where
  departures : Option Nat
  arrivals : Option Nat
  departure_delay_minutes : Option Int
  arrival_delay_minutes : Option Int
deriving DecidableEq, Repr

/-- Incremental delta of one event. -/
def mkIncremental (e : AirportEvent) : Incremental :=
  match e.event_type with
  | .departure => ⟨some 1, none, e.delay, none⟩
  | .arrival => ⟨none, some 1, none, e.delay⟩

/-- One event-level snapshot appended to an airport timeline (lines 236-249
of build_graph.py). -/
structure Snapshot where
  timestamp : Int
  event_type : EventType
  event_flight_id : String
  incremental : Incremental
  cumulative : Cumulative
deriving DecidableEq, Repr

/-- Snapshot created for one event from the post-update accumulator. -/
def mkSnapshot (e : AirportEvent) (acc : AirportAcc) : Snapshot :=
  ⟨e.timestamp, e.event_type, e.flight_id, mkIncremental e, computeCumulative acc⟩

/-- State of the replay loop: the accumulator and the timeline of every
airport (total maps with defaultdict semantics; airports never touched stay
at the initial value). -/
structure BuildState where
  acc : String → AirportAcc
  timelines : String → List Snapshot

/-- Initial replay state: empty accumulators and timelines. -/
def initState : BuildState :=
  ⟨fun _ => initAcc, fun _ => []⟩

/-- Replay of one event (lines 183-253 of build_graph.py): events at airports
that are not nodes of the graph are skipped; otherwise the accumulator of the
event's airport is updated and a snapshot is appended to its timeline.  The
update of the node's last_updated marker is not modelled. -/
def processEvent (nodes : List String) (st : BuildState) (e : AirportEvent) : BuildState :=
  if e.airport ∈ nodes then
    let acc' := accStep (st.acc e.airport) e
    { acc := fun a => if a = e.airport then acc' else st.acc a
      timelines := fun a =>
        if a = e.airport then st.timelines a ++ [mkSnapshot e acc'] else st.timelines a }
  else st

/-- Event timeline construction (create_event_level_snapshots): collect all
candidate events, sort them by timestamp, and replay them in order; the
result maps each airport code to its ordered snapshot list. -/
def create_event_level_snapshots (nodes : List String) (flights : List Flight) :
    String → List Snapshot :=
  (((collectEvents flights).mergeSort eventLE).foldl (processEvent nodes) initState).timelines

/-- The canonical zero-state literal returned by get_airport_state_at_time
when the timeline is non-empty but no snapshot is at-or-before the target
instant (lines 71-78 of example_usage.py). -/
def zeroCumulative : Cumulative :=
  ⟨0, 0, 0, 0, 0, 0⟩

/-- Result of the point-in-time query, distinguishing the Python KeyError
raised by the node-mapping access on an unknown id, the early `return None`
branches, and a normal cumulative-state return. -/
inductive StateResult where
  | raisedKeyError
  | returnedNone
  | returnedState (c : Cumulative)
deriving DecidableEq, Repr

/-- The snapshot-scan loop of get_airport_state_at_time (lines 61-69 of
example_usage.py): walk the timeline, remember the last snapshot with
timestamp at-or-before the target, stop at the first later one.  Snapshot
timestamps are always the valid ISO serializations written by the builder, so
the reparse inside the loop never fails. -/
def lastAtOrBefore (t : Int) : List Snapshot → Option Snapshot
  | [] => none
  | s :: rest =>
    if s.timestamp ≤ t then
      some ((lastAtOrBefore t rest).getD s)
    else
      none

/-- Node lookup of the Python mapping access G.nodes[airport_code]: first
binding wins, absence means a KeyError. -/
def lookupTimeline : List (String × List Snapshot) → String → Option (List Snapshot)
  | [], _ => none
  | (c, snaps) :: rest, code => if c = code then some snaps else lookupTimeline rest code

/-- Point-in-time state query get_airport_state_at_time (lines 46-78 of
example_usage.py).  The graph is represented by its airport nodes, each with
its time_snapshots list (an absent time_snapshots key and an empty list take
the same early-return branch).  The target instant is given directly as an
instant, matching a caller that passes a datetime. -/
def get_airport_state_at_time (g : List (String × List Snapshot)) (code : String)
    (t : Int) : StateResult :=
  match lookupTimeline g code with
  | none => .raisedKeyError
  | some snaps =>
    if snaps = [] then .returnedNone
    else
      match lastAtOrBefore t snaps with
      | some s => .returnedState s.cumulative
      | none => .returnedState zeroCumulative

/-- Active-flight query get_active_flights_at_time (lines 81-113 of
example_usage.py): keep the flight edges whose best-available departure is
at-or-before the target and whose best-available arrival is strictly after;
edges missing either instant are dropped.  The source returns a projection
dictionary per kept edge; the embedding returns the kept edges themselves. -/
def get_active_flights_at_time (edges : List Flight) (t : Int) : List Flight :=
  edges.filter (fun f =>
    match f.bestDeparture, f.bestArrival with
    | some d, some a => decide (d ≤ t ∧ t < a)
    | _, _ => false)

/-- Sample instants of the dashboard volume timeline: start, start+step, ...
while the instant stays at-or-before the stop instant.  The while loop of the
source terminates exactly when the step is positive or the range is empty;
this closed form is its output for a positive step. -/
def sampleInstants (start stop step : Int) : List Int :=
  if 0 < step ∧ start ≤ stop then
    (List.range (((stop - start).toNat / step.toNat) + 1)).map
      (fun i => start + step * Int.ofNat i)
  else []

/-- One monotone cursor of the two-pointer sweep, represented as the count of
consumed elements together with the unconsumed suffix of the sorted time
array.  Advancing consumes the leading elements at-or-before the sample
instant (lines 262-274 of dashboard.py). -/
def advanceCursor (t : Int) : Nat × List Int → Nat × List Int
  | (c, rem) =>
    (c + (rem.takeWhile (fun x => decide (x ≤ t))).length,
     rem.dropWhile (fun x => decide (x ≤ t)))

/-- The sampling loop of get_flight_volume_timeline: at each sample instant,
advance both cursors and record the instant with the two cursor positions,
which the source uses as the departure and arrival counts. -/
def volumeLoop : List Int → Nat × List Int → Nat × List Int → List (Int × Nat × Nat)
  | [], _, _ => []
  | t :: ts, dc, ac =>
    let dc' := advanceCursor t dc
    let ac' := advanceCursor t ac
    (t, dc'.1, ac'.1) :: volumeLoop ts dc' ac'

/-- Comparator for the time-array sorts of the volume timeline. -/
def intLE (a b : Int) : Bool :=
  decide (a ≤ b)

/-- Flight volume timeline get_flight_volume_timeline (lines 222-287 of
dashboard.py): pre-compute the best-available departure and arrival instants
of all edges, sort each array, then sweep the sample instants with two
monotonically advancing cursors.  The result rows carry the sample instant
and the cumulative departure and arrival counts (the source also stores
their sum, a derived column not modelled separately). -/
def get_flight_volume_timeline (edges : List Flight) (start stop step : Int) :
    List (Int × Nat × Nat) :=
  let depTimes := (edges.filterMap Flight.bestDeparture).mergeSort intLE
  let arrTimes := (edges.filterMap Flight.bestArrival).mergeSort intLE
  volumeLoop (sampleInstants start stop step) (0, depTimes) (0, arrTimes)

/-- Edge type code mapping get_edge_type_code (lines 172-188 of
build_operations_graph.py). -/
def get_edge_type_code (edge_code : String) : String :=
  let u := pyUpper (pyStrip edge_code)
  if u = "AC" then "AIRCRAFT_TURN"
  else if u = "P" then "CREW_PILOT"
  else if u = "F" then "CREW_FA"
  else "UNKNOWN_" ++ u

/-- Attribute bag of a resource-connection edge (lines 235-246 of
build_operations_graph.py); the six temporal attributes are absent when the
corresponding row value did not parse. -/
structure EdgeAttrs where
  type : String
  edge_code : String
  edge_label : String
  edge_activity : String
  source_flt_sch_dprt_gmt : Option Int
  source_flt_sch_arr_gmt : Option Int
  source_flt_actl_arr_gmt : Option Int
  target_flt_sch_dprt_gmt : Option Int
  target_flt_sch_arr_gmt : Option Int
  target_flt_actl_arr_gmt : Option Int
deriving DecidableEq, Repr

/-- One stored edge of the operations multigraph, identified by the
(source, target, key) triple. -/
structure OpsEdge where
  source : String
  target : String
  key : String
  attrs : EdgeAttrs
deriving DecidableEq, Repr

/-- The parsed temporal columns of one CSV connection row, as consumed by
add_flight_connection_edge; string parsing (parse_dt) is modelled in its own
section, so the row carries the parse results. -/
structure OpsRow where
  source_flt_sch_dprt_gmt : Option Int
  source_flt_sch_arr_gmt : Option Int
  source_flt_actl_arr_gmt : Option Int
  target_flt_sch_dprt_gmt : Option Int
  target_flt_sch_arr_gmt : Option Int
  target_flt_actl_arr_gmt : Option Int
deriving DecidableEq, Repr

/-- Dictionary update applied by the NetworkX MultiDiGraph when add_edge is
called with an existing (source, target, key): the stored attribute dict is
updated in place with the new attribute dict.  The four string attributes
are always present in the new dict, so they are overwritten; a temporal
attribute is overwritten only when present in the new dict (None entries
were stripped), otherwise the old value survives. -/
def updateAttrs (old new : EdgeAttrs) : EdgeAttrs :=
  { type := new.type
    edge_code := new.edge_code
    edge_label := new.edge_label
    edge_activity := new.edge_activity
    source_flt_sch_dprt_gmt := pyOr new.source_flt_sch_dprt_gmt old.source_flt_sch_dprt_gmt
    source_flt_sch_arr_gmt := pyOr new.source_flt_sch_arr_gmt old.source_flt_sch_arr_gmt
    source_flt_actl_arr_gmt := pyOr new.source_flt_actl_arr_gmt old.source_flt_actl_arr_gmt
    target_flt_sch_dprt_gmt := pyOr new.target_flt_sch_dprt_gmt old.target_flt_sch_dprt_gmt
    target_flt_sch_arr_gmt := pyOr new.target_flt_sch_arr_gmt old.target_flt_sch_arr_gmt
    target_flt_actl_arr_gmt := pyOr new.target_flt_actl_arr_gmt old.target_flt_actl_arr_gmt }

/-- Whether an edge carries the given (source, target, key) identity. -/
def OpsEdge.hasTriple (e : OpsEdge) (src tgt key : String) : Bool :=
  decide (e.source = src ∧ e.target = tgt ∧ e.key = key)

/-- NetworkX MultiDiGraph add_edge with an explicit key: when an edge with
the same (source, target, key) triple already exists its attribute dict is
updated in place, otherwise a new edge is appended. -/
def addEdgeNx (g : List OpsEdge) (src tgt key : String) (attrs : EdgeAttrs) : List OpsEdge :=
  if g.any (fun e => e.hasTriple src tgt key) then
    g.map (fun e =>
      if e.hasTriple src tgt key then { e with attrs := updateAttrs e.attrs attrs } else e)
  else g ++ [⟨src, tgt, key, attrs⟩]

/-- Resource-connection edge construction add_flight_connection_edge (lines
191-258 of build_operations_graph.py), restricted to the edge store: the
node-creation calls (ensure_flight_node) touch only the node set and are
orthogonal to the edge store and to the warning.  Returns the updated edge
store together with whether the temporal-consistency warning was printed.
The warning fires exactly when the parsed source actual arrival and target
scheduled departure are both present and the former is strictly later; the
edge is added in every case. -/
def add_flight_connection_edge (g : List OpsEdge) (src_flight_id tgt_flight_id : String)
    (edge_type edge_label edge_activity : String) (row : OpsRow) :
    List OpsEdge × Bool :=
  if src_flight_id = "" ∨ tgt_flight_id = "" then (g, false)
  else
    let edge_type_full := get_edge_type_code edge_type
    let edge_key := edge_type_full ++ "_" ++ edge_label
    let attrs : EdgeAttrs :=
      { type := edge_type_full
        edge_code := pyUpper (pyStrip edge_type)
        edge_label := pyStrip edge_label
        edge_activity := pyStrip edge_activity
        source_flt_sch_dprt_gmt := row.source_flt_sch_dprt_gmt
        source_flt_sch_arr_gmt := row.source_flt_sch_arr_gmt
        source_flt_actl_arr_gmt := row.source_flt_actl_arr_gmt
        target_flt_sch_dprt_gmt := row.target_flt_sch_dprt_gmt
        target_flt_sch_arr_gmt := row.target_flt_sch_arr_gmt
        target_flt_actl_arr_gmt := row.target_flt_actl_arr_gmt }
    let warned :=
      match row.source_flt_actl_arr_gmt, row.target_flt_sch_dprt_gmt with
      | some a, some d => decide (d < a)
      | _, _ => false
    (addEdgeNx g src_flight_id tgt_flight_id edge_key attrs, warned)

/-- A parsed Python datetime value: the instant it denotes plus its tzinfo,
modelled as an optional UTC offset in minutes (none is a naive datetime). -/
structure PyDateTime where
  epochSeconds : Int
  tzOffsetMinutes : Option Int
deriving DecidableEq, Repr

/-- The Z-suffix rewriting applied by parse_iso8601_datetime before calling
the library parser (lines 31-35 of load_sample_data.py): a trailing Z is
replaced by an explicit +00:00 suffix, and any remaining Z is substituted as
well. -/
def zRewrite (date_str : String) : String :=
  let s1 := if pyEndsWith date_str "Z" then pyDropLast date_str ++ "+00:00" else date_str
  pyReplaceChar s1 'Z' "+00:00"

/-- Temporal parser parse_iso8601_datetime (lines 24-41 of
load_sample_data.py).  The Python library parser datetime.fromisoformat is
external to the repository and is abstracted as a total function returning
none where the library would raise the ValueError that the source catches;
with a text input no other exception can escape the try block.  Blank input
short-circuits to the absent result; a successfully parsed naive datetime is
stamped with the UTC offset. -/
def parse_iso8601_datetime (fromIso : String → Option PyDateTime)
    (date_str : String) : Option PyDateTime :=
  if date_str = "" ∨ pyStrip date_str = "" then none
  else
    match fromIso (zRewrite date_str) with
    | none => none
    | some dt =>
      some (if dt.tzOffsetMinutes.isSome then dt else { dt with tzOffsetMinutes := some 0 })

/-- Temporal parser parse_dt (lines 82-112 of build_operations_graph.py):
ISO-8601 forms are delegated directly; otherwise fractional seconds are cut,
the space separator is normalized to T, and a Z suffix is appended when no
explicit offset marker is present, before delegating.  The surrounding
try/except of the source can only be reached by library exceptions, which the
abstracted total parser already folds into the absent result. -/
def parse_dt (fromIso : String → Option PyDateTime) (s : String) : Option PyDateTime :=
  if s = "" ∨ pyStrip s = "" then none
  else if pyContainsChar s 'T' ∨ pyEndsWith s "Z" then parse_iso8601_datetime fromIso s
  else
    let sClean := pyStrip s
    let sClean := if pyContainsChar sClean '.' then pySplitFirst sClean '.' else sClean
    let dtStr := pyReplaceChar sClean ' ' "T"
    let dtStr :=
      if ¬ pyEndsWith dtStr "Z" ∧ ¬ pyContainsChar dtStr '+' ∧
         ¬ pyContainsChar (pyTakeRight dtStr 6) '-'
      then dtStr ++ "Z" else dtStr
    parse_iso8601_datetime fromIso dtStr

/-- Delay computation of load_flights (lines 189-200 of
load_sample_data.py): when both the scheduled and the actual instant are
present, the delay is int of the second difference divided by 60 — Python
int() on a float truncates toward zero, which for an integer second count is
t-division by 60; when either instant is absent the delay is None. -/
def delayMinutes (scheduled actual : Option Int) : Option Int :=
  match scheduled, actual with
  | some s, some a => some (Int.tdiv (a - s) 60)
  | _, _ => none

/-- Helper: any successfully parsed result of parse_iso8601_datetime is
timezone-aware. -/
theorem parse_iso8601_datetime_tz_isSome (fromIso : String → Option PyDateTime)
    (s : String) (dt : PyDateTime)
    (h : parse_iso8601_datetime fromIso s = some dt) : dt.tzOffsetMinutes.isSome := by
  unfold parse_iso8601_datetime at h
  split at h
  · exact absurd h (by simp)
  · revert h
    cases fromIso (zRewrite s) with
    | none => intro h; exact absurd h (by simp)
    | some dt0 =>
      intro h
      rcases Option.some.inj h with rfl
      by_cases h0 : dt0.tzOffsetMinutes.isSome
      · simp [h0]
      · simp [h0]

/-- C9: for every input text token, the temporal parsers
parse_iso8601_datetime and parse_dt return either a timezone-aware instant
or the absent signal, blank input is absent, and an instant parsed without
an explicit offset is stamped as UTC; the embedding is a total function, so
no exception reaches the caller (the source catches the library ValueError,
the only exception a text input can provoke). -/
theorem temporal_parser_total_and_utc (fromIso : String → Option PyDateTime)
    (s : String) (dt dt0 : PyDateTime) :
    (parse_iso8601_datetime fromIso s = some dt → dt.tzOffsetMinutes.isSome) ∧
    (parse_dt fromIso s = some dt → dt.tzOffsetMinutes.isSome) ∧
    (pyStrip s = "" → parse_iso8601_datetime fromIso s = none ∧ parse_dt fromIso s = none) ∧
    (pyStrip s ≠ "" → fromIso (zRewrite s) = some dt0 → dt0.tzOffsetMinutes = none →
      parse_iso8601_datetime fromIso s = some { dt0 with tzOffsetMinutes := some 0 }) := by
  refine ⟨parse_iso8601_datetime_tz_isSome fromIso s dt, ?_, ?_, ?_⟩
  · intro h
    unfold parse_dt at h
    split at h
    · exact absurd h (by simp)
    · split at h
      · exact parse_iso8601_datetime_tz_isSome _ _ _ h
      · exact parse_iso8601_datetime_tz_isSome _ _ _ h
  · intro hblank
    constructor
    · unfold parse_iso8601_datetime
      simp [hblank]
    · unfold parse_dt
      simp [hblank]
  · intro hblank hparse hnaive
    unfold parse_iso8601_datetime
    have hne : ¬ (s = "" ∨ pyStrip s = "") := by
      rintro (rfl | h)
      · exact hblank (by decide)
      · exact hblank h
    simp only [hne, if_false, hparse, hnaive]
    simp [hnaive]

/-- C10: with both instants present the computed delay is the signed minute
count truncated toward zero (magnitude is the floor of the magnitude in
minutes, sign follows the difference), and with either instant absent the
delay is the absent signal, never 0. -/
theorem delay_truncates_toward_zero (s a d : Int) :
    (delayMinutes (some s) (some a) = some d →
      d.natAbs = (a - s).natAbs / 60 ∧ (0 ≤ a - s → 0 ≤ d) ∧ (a - s ≤ 0 → d ≤ 0)) ∧
    delayMinutes none (some a) = none ∧
    delayMinutes (some s) none = none ∧
    delayMinutes (none : Option Int) none = none := by
  refine ⟨?_, rfl, rfl, rfl⟩
  intro h
  rcases Option.some.inj h with rfl
  refine ⟨?_, ?_, ?_⟩
  · rw [Int.natAbs_tdiv]
    rfl
  · intro hnn
    exact Int.tdiv_nonneg hnn (by norm_num)
  · intro hnp
    have h1 : (0 : Int) ≤ (s - a).tdiv 60 := Int.tdiv_nonneg (by omega) (by norm_num)
    have h3 : (a - s) = -(s - a) := by ring
    rw [h3, Int.neg_tdiv]
    omega

/-- C3: the active-flight query returns exactly the edges of the store whose
best-available departure is at-or-before the instant and whose best-available
arrival is strictly after it; an edge missing either instant never appears. -/
theorem active_flights_membership (edges : List Flight) (t : Int) (f : Flight) :
    f ∈ get_active_flights_at_time edges t ↔
      f ∈ edges ∧ ∃ d a, f.bestDeparture = some d ∧ f.bestArrival = some a ∧
        d ≤ t ∧ t < a := by
  unfold get_active_flights_at_time
  rw [List.mem_filter]
  refine and_congr_right fun _ => ?_
  rcases hd : f.bestDeparture with _ | d <;> rcases ha : f.bestArrival with _ | a <;>
    simp [hd, ha]

/-- A single-flight input with a parameterized departure delay, used to
exercise the on-time classification through the full timeline builder. -/
def flightWithDepDelay (d : Int) : Flight :=
  ⟨"WN100_2026-01-01_ATL_LGA", "ATL", "LGA", some 0, some 60, none, none, some d, none⟩

/-- C5: on-time classification in the timeline builder is the strict
comparison of the absolute delay with 15: running the builder on a single
departure with delay d yields on-time percentage 100 exactly when the
absolute delay is under 15 and 0 otherwise, so a delay of 15 or -15 is not
on-time while any delay of absolute value under 15 is. -/
theorem on_time_threshold_strict (d : Int) :
    ((create_event_level_snapshots ["ATL", "LGA"] [flightWithDepDelay d]) "ATL").map
        (fun s => s.cumulative.on_time_departure_pct) =
      [if |d| < 15 then 100 else 0] := by
  by_cases hd : |d| < 15 <;>
    (simp [create_event_level_snapshots, collectEvents, eventsOfFlight, flightWithDepDelay,
       Flight.bestDeparture, Flight.bestArrival, pyOr, List.mergeSort, processEvent, initState,
       accStep, mkSnapshot, computeCumulative, pctOf, onTimeCount, initAcc, hd]
     norm_num [round2, roundHalfEven])

/-- Helper: prepending to a list shifts its last element, with the new head
as the default. -/
theorem getLast?_cons_getD (a : Snapshot) (l : List Snapshot) :
    (a :: l).getLast? = some (l.getLast?.getD a) := by
  induction l generalizing a with
  | nil => rfl
  | cons b l ih =>
    rw [List.getLast?_cons_cons, ih b]
    simp

/-- Helper: on a timeline sorted by timestamp, the early-break scan of
get_airport_state_at_time finds exactly the last snapshot whose timestamp is
at-or-before the target instant. -/
theorem lastAtOrBefore_sorted (t : Int) (l : List Snapshot)
    (hp : l.Pairwise (fun s₁ s₂ => s₁.timestamp ≤ s₂.timestamp)) :
    lastAtOrBefore t l = (l.filter (fun s => decide (s.timestamp ≤ t))).getLast? := by
  induction l with
  | nil => rfl
  | cons s rest ih =>
    rcases List.pairwise_cons.mp hp with ⟨hrel, hrest⟩
    by_cases hle : s.timestamp ≤ t
    · rw [show lastAtOrBefore t (s :: rest) = some ((lastAtOrBefore t rest).getD s) from
        by simp [lastAtOrBefore, hle]]
      rw [ih hrest]
      rw [show (s :: rest).filter (fun x => decide (x.timestamp ≤ t)) =
          s :: rest.filter (fun x => decide (x.timestamp ≤ t)) from by simp [hle]]
      rw [getLast?_cons_getD]
    · have hnone : rest.filter (fun x => decide (x.timestamp ≤ t)) = [] := by
        rw [List.filter_eq_nil_iff]
        intro x hx
        have := hrel x hx
        simp only [decide_eq_true_eq]
        omega
      simp [lastAtOrBefore, hle, hnone]

/-- A graph whose only airport node carries an empty timeline. -/
def exampleC1Graph : List (String × List Snapshot) :=
  [("ATL", [])]

/-- C1 counterexample: the claim says a node without a timeline, or an
unknown node id, yields the canonical zero-state and never an error; the
code instead returns None for a node with an empty timeline and raises a
KeyError on the mapping access for an unknown node id. -/
theorem state_at_lookup_miss_counterexample :
    get_airport_state_at_time exampleC1Graph "ATL" 0 = StateResult.returnedNone ∧
    get_airport_state_at_time exampleC1Graph "LGA" 0 = StateResult.raisedKeyError ∧
    StateResult.returnedNone ≠ StateResult.returnedState zeroCumulative ∧
    StateResult.raisedKeyError ≠ StateResult.returnedState zeroCumulative := by
  decide

/-- C1 amended: when the queried node exists and carries a non-empty sorted
timeline, state_at returns the cumulative mapping of the latest snapshot
with instant at-or-before the target, and the canonical zero-state when
every snapshot is later; a node with an empty (or absent) timeline returns
None instead, and an unknown node id raises a KeyError. -/
theorem state_at_sorted_spec (g : List (String × List Snapshot)) (code : String)
    (t : Int) (snaps : List Snapshot)
    (hfind : lookupTimeline g code = some snaps) (hne : snaps ≠ [])
    (hsorted : snaps.Pairwise (fun s₁ s₂ => s₁.timestamp ≤ s₂.timestamp)) :
    get_airport_state_at_time g code t =
      match (snaps.filter (fun s => decide (s.timestamp ≤ t))).getLast? with
      | some s => StateResult.returnedState s.cumulative
      | none => StateResult.returnedState zeroCumulative := by
  unfold get_airport_state_at_time
  rw [hfind]
  simp only [hne, if_false]
  rw [lastAtOrBefore_sorted t snaps hsorted]

/-- A concrete one-snapshot timeline for the C1 witness. -/
def snapA : Snapshot :=
  ⟨10, .departure, "WN100_2026-01-01_ATL_LGA", ⟨some 1, none, some 0, none⟩,
    ⟨1, 0, 0, 0, 100, 0⟩⟩

/-- Witness for the C1 amended theorem at a concrete graph and instant. -/
theorem state_at_sorted_spec_witness :
    get_airport_state_at_time [("ATL", [snapA])] "ATL" 20 =
      StateResult.returnedState snapA.cumulative := by
  have h := state_at_sorted_spec [("ATL", [snapA])] "ATL" 20 [snapA]
    (by decide) (by decide) (by decide)
  rw [h]
  decide

/-- Helper: after addEdgeNx, an edge with the requested (source, target, key)
triple is present in the store. -/
theorem addEdgeNx_exists_triple (g : List OpsEdge) (src tgt key : String)
    (attrs : EdgeAttrs) :
    ∃ e ∈ addEdgeNx g src tgt key attrs,
      e.source = src ∧ e.target = tgt ∧ e.key = key := by
  unfold addEdgeNx
  split
  · next hany =>
    rcases List.any_eq_true.mp hany with ⟨e, he, htr⟩
    have htr' := of_decide_eq_true htr
    refine ⟨{ e with attrs := updateAttrs e.attrs attrs }, ?_, htr'⟩
    have : (if e.hasTriple src tgt key = true
        then { e with attrs := updateAttrs e.attrs attrs } else e) =
        { e with attrs := updateAttrs e.attrs attrs } := by
      rw [if_pos htr]
    exact this ▸ List.mem_map_of_mem _ he
  · exact ⟨⟨src, tgt, key, attrs⟩, List.mem_append_right _ (List.mem_singleton.mpr rfl),
      rfl, rfl, rfl⟩

/-- A connection row whose source actual arrival is absent while its source
scheduled arrival (13:10 as 47400s) is after the target scheduled departure
(13:00 as 46800s). -/
def rowNoActualArr : OpsRow :=
  ⟨none, some 47400, none, some 46800, none, none⟩

/-- C6 counterexample: the claim says the validator compares the source
flight's best-available arrival (actual preferred, scheduled as fallback)
with the target's scheduled departure; on a row whose actual arrival is
absent but whose scheduled arrival (the best available value, 47400) is
strictly after the target's scheduled departure (46800) the code emits no
warning, because it consults only the actual arrival. -/
theorem validator_fallback_counterexample :
    (add_flight_connection_edge [] "WN10_2026-01-01_ATL_LGA" "WN20_2026-01-01_LGA_SLC"
        "AC" "N123" "turn" rowNoActualArr).2 = false ∧
    pyOr rowNoActualArr.source_flt_actl_arr_gmt rowNoActualArr.source_flt_sch_arr_gmt =
      some 47400 ∧
    rowNoActualArr.target_flt_sch_dprt_gmt = some 46800 ∧
    ¬ ((47400 : Int) ≤ 46800) := by
  decide

/-- C6 amended: the validator compares only the source flight's actual
arrival with the target's scheduled departure — no scheduled fallback — and
emits the non-fatal warning exactly when both are present and the former is
strictly later; in every case, warning or not, an edge with the constructed
(source, target, discriminator) triple is present in the store afterwards. -/
theorem validator_warning_and_edge_added (g : List OpsEdge)
    (src tgt etype elabel eact : String) (row : OpsRow)
    (hsrc : src ≠ "") (htgt : tgt ≠ "") :
    ((add_flight_connection_edge g src tgt etype elabel eact row).2 = true ↔
      ∃ a dep, row.source_flt_actl_arr_gmt = some a ∧
        row.target_flt_sch_dprt_gmt = some dep ∧ dep < a) ∧
    ∃ e ∈ (add_flight_connection_edge g src tgt etype elabel eact row).1,
      e.source = src ∧ e.target = tgt ∧
      e.key = get_edge_type_code etype ++ "_" ++ elabel := by
  unfold add_flight_connection_edge
  have hcond : ¬ (src = "" ∨ tgt = "") := by
    rintro (h | h)
    · exact hsrc h
    · exact htgt h
  simp only [hcond, if_false]
  constructor
  · rcases ha : row.source_flt_actl_arr_gmt with _ | a <;>
      rcases hd : row.target_flt_sch_dprt_gmt with _ | dep <;> simp [ha, hd]
  · exact addEdgeNx_exists_triple g src tgt _ _

/-- Witness for the C6 amended theorem: on a row whose actual arrival 47400
is after the target scheduled departure 46800 the warning fires, and the
edge is present. -/
theorem validator_warning_and_edge_added_witness :
    ((add_flight_connection_edge [] "WN10_2026-01-01_ATL_LGA" "WN20_2026-01-01_LGA_SLC"
        "AC" "N123" "turn" ⟨none, none, some 47400, some 46800, none, none⟩).2 = true) ∧
    ∃ e ∈ (add_flight_connection_edge [] "WN10_2026-01-01_ATL_LGA" "WN20_2026-01-01_LGA_SLC"
        "AC" "N123" "turn" ⟨none, none, some 47400, some 46800, none, none⟩).1,
      e.source = "WN10_2026-01-01_ATL_LGA" ∧ e.target = "WN20_2026-01-01_LGA_SLC" ∧
      e.key = get_edge_type_code "AC" ++ "_" ++ "N123" := by
  have h := validator_warning_and_edge_added [] "WN10_2026-01-01_ATL_LGA"
    "WN20_2026-01-01_LGA_SLC" "AC" "N123" "turn"
    ⟨none, none, some 47400, some 46800, none, none⟩ (by decide) (by decide)
  exact ⟨h.1.mpr ⟨47400, 46800, rfl, rfl, by decide⟩, h.2⟩

/-- The identity of a stored edge: its (source, target, discriminator)
triple. -/
def tripleOf (e : OpsEdge) : String × String × String :=
  (e.source, e.target, e.key)

/-- Uniqueness of the (source, target, discriminator) triple across the
store. -/
def tripleUnique (g : List OpsEdge) : Prop :=
  g.Pairwise (fun e₁ e₂ => tripleOf e₁ ≠ tripleOf e₂)

/-- Helper: the Boolean triple test agrees with the triple projection. -/
theorem hasTriple_iff (e : OpsEdge) (src tgt key : String) :
    e.hasTriple src tgt key = true ↔ tripleOf e = (src, tgt, key) := by
  simp [OpsEdge.hasTriple, tripleOf, Prod.ext_iff]

/-- Helper: the in-place attribute update of addEdgeNx never changes an
edge's identity triple. -/
theorem tripleOf_update (e : OpsEdge) (src tgt key : String) (attrs : EdgeAttrs) :
    tripleOf (if e.hasTriple src tgt key = true
      then { e with attrs := updateAttrs e.attrs attrs } else e) = tripleOf e := by
  split <;> rfl

/-- Helper: adding with a triple not yet in the store appends one new edge. -/
theorem addEdgeNx_of_fresh (g : List OpsEdge) (src tgt key : String) (attrs : EdgeAttrs)
    (h : ∀ e ∈ g, tripleOf e ≠ (src, tgt, key)) :
    addEdgeNx g src tgt key attrs = g ++ [⟨src, tgt, key, attrs⟩] := by
  unfold addEdgeNx
  have hany : g.any (fun e => e.hasTriple src tgt key) = false := by
    rw [List.any_eq_false]
    intro e he habs
    exact h e he ((hasTriple_iff e src tgt key).mp habs)
  simp [hany]

/-- Helper: adding with a triple already in the store keeps the edge count
and the stored identity triples unchanged. -/
theorem addEdgeNx_of_existing (g : List OpsEdge) (src tgt key : String) (attrs : EdgeAttrs)
    (h : ∃ e ∈ g, tripleOf e = (src, tgt, key)) :
    (addEdgeNx g src tgt key attrs).length = g.length ∧
    (addEdgeNx g src tgt key attrs).map tripleOf = g.map tripleOf := by
  unfold addEdgeNx
  have hany : g.any (fun e => e.hasTriple src tgt key) = true := by
    rcases h with ⟨e, he, htr⟩
    exact List.any_eq_true.mpr ⟨e, he, (hasTriple_iff e src tgt key).mpr htr⟩
  simp only [hany, if_true]
  refine ⟨by simp, ?_⟩
  rw [List.map_map]
  exact List.map_congr_left (fun e _ => tripleOf_update e src tgt key attrs)

/-- Helper: addEdgeNx preserves triple uniqueness. -/
theorem addEdgeNx_tripleUnique (g : List OpsEdge) (src tgt key : String)
    (attrs : EdgeAttrs) (h : tripleUnique g) :
    tripleUnique (addEdgeNx g src tgt key attrs) := by
  by_cases hex : ∃ e ∈ g, tripleOf e = (src, tgt, key)
  · unfold addEdgeNx
    have hany : g.any (fun e => e.hasTriple src tgt key) = true := by
      rcases hex with ⟨e, he, htr⟩
      exact List.any_eq_true.mpr ⟨e, he, (hasTriple_iff e src tgt key).mpr htr⟩
    simp only [hany, if_true]
    exact h.map _ (fun a b hab => by
      rw [tripleOf_update a src tgt key attrs, tripleOf_update b src tgt key attrs]
      exact hab)
  · push_neg at hex
    rw [addEdgeNx_of_fresh g src tgt key attrs hex]
    unfold tripleUnique at h ⊢
    rw [List.pairwise_append]
    refine ⟨h, List.pairwise_singleton _ _, ?_⟩
    intro a ha b hb
    rw [List.mem_singleton] at hb
    subst hb
    exact hex a ha

/-- First connection row of the C8 counterexample. -/
def rowFirst : OpsRow :=
  ⟨some 100, some 200, some 210, some 300, some 400, none⟩

/-- Second connection row of the C8 counterexample, lacking the scheduled
arrival so the dictionary merge is visible. -/
def rowSecond : OpsRow :=
  ⟨some 101, none, none, some 301, none, some 500⟩

/-- C8 counterexample: the claim says reuse of an identical (source, target,
discriminator) triple is signalled as a caller error rather than silently
merging; adding the same triple twice instead leaves one edge whose
attribute bag is silently dictionary-merged (new activity overwrites, the
absent scheduled arrival keeps the old value), and no error of any kind is
signalled. -/
theorem add_edge_silent_merge_counterexample :
    let g1 := (add_flight_connection_edge [] "WN10_2026-01-01_ATL_LGA"
      "WN20_2026-01-01_LGA_SLC" "AC" "N528SW" "turn1" rowFirst).1
    let r2 := add_flight_connection_edge g1 "WN10_2026-01-01_ATL_LGA"
      "WN20_2026-01-01_LGA_SLC" "AC" "N528SW" "turn2" rowSecond
    r2.1.length = 1 ∧
    r2.1.map (fun e => e.attrs.edge_activity) = ["turn2"] ∧
    r2.1.map (fun e => e.attrs.source_flt_sch_arr_gmt) = [some 200] ∧
    r2.2 = false := by
  decide

/-- C8 amended: add_flight_connection_edge always creates a new, additional
edge when the (source, target, discriminator) triple is new — so parallel
edges with distinct discriminators between the same node pair coexist — and
the full triple stays unique in the store; but reuse of an identical triple
is not signalled as an error: the existing edge's attribute bag is silently
updated in place, leaving the edge count and the stored triples unchanged. -/
theorem add_edge_triple_semantics (g : List OpsEdge)
    (src tgt etype elabel eact : String) (row : OpsRow) :
    (tripleUnique g →
      tripleUnique (add_flight_connection_edge g src tgt etype elabel eact row).1) ∧
    (src ≠ "" → tgt ≠ "" →
      (∀ e ∈ g, tripleOf e ≠ (src, tgt, get_edge_type_code etype ++ "_" ++ elabel)) →
      ∃ attrs, (add_flight_connection_edge g src tgt etype elabel eact row).1 =
        g ++ [⟨src, tgt, get_edge_type_code etype ++ "_" ++ elabel, attrs⟩]) ∧
    (src ≠ "" → tgt ≠ "" →
      (∃ e ∈ g, tripleOf e = (src, tgt, get_edge_type_code etype ++ "_" ++ elabel)) →
      (add_flight_connection_edge g src tgt etype elabel eact row).1.length = g.length ∧
      (add_flight_connection_edge g src tgt etype elabel eact row).1.map tripleOf =
        g.map tripleOf) := by
  refine ⟨?_, ?_, ?_⟩
  · intro h
    unfold add_flight_connection_edge
    split
    · exact h
    · exact addEdgeNx_tripleUnique g src tgt _ _ h
  · intro hsrc htgt hfresh
    have hcond : ¬ (src = "" ∨ tgt = "") := by
      rintro (h | h)
      · exact hsrc h
      · exact htgt h
    unfold add_flight_connection_edge
    simp only [hcond, if_false]
    exact ⟨_, addEdgeNx_of_fresh g src tgt _ _ hfresh⟩
  · intro hsrc htgt hex
    have hcond : ¬ (src = "" ∨ tgt = "") := by
      rintro (h | h)
      · exact hsrc h
      · exact htgt h
    unfold add_flight_connection_edge
    simp only [hcond, if_false]
    exact addEdgeNx_of_existing g src tgt _ _ hex

/-- Witness for the C8 amended theorem: a fresh-triple add into the empty
store keeps triples unique and appends exactly one edge. -/
theorem add_edge_triple_semantics_witness :
    tripleUnique (add_flight_connection_edge [] "WN10_2026-01-01_ATL_LGA"
      "WN20_2026-01-01_LGA_SLC" "AC" "N528SW" "turn1" rowFirst).1 ∧
    ∃ attrs, (add_flight_connection_edge [] "WN10_2026-01-01_ATL_LGA"
      "WN20_2026-01-01_LGA_SLC" "AC" "N528SW" "turn1" rowFirst).1 =
      [] ++ [⟨"WN10_2026-01-01_ATL_LGA", "WN20_2026-01-01_LGA_SLC",
        get_edge_type_code "AC" ++ "_" ++ "N528SW", attrs⟩] := by
  have h := add_edge_triple_semantics [] "WN10_2026-01-01_ATL_LGA"
    "WN20_2026-01-01_LGA_SLC" "AC" "N528SW" "turn1" rowFirst
  exact ⟨h.1 List.Pairwise.nil,
    h.2.1 (by decide) (by decide) (fun e he => absurd he (List.not_mem_nil e))⟩

/-- Single-airport view of the replay loop: the snapshots appended for a
fixed airport, given its incoming accumulator and the subsequence of events
at that airport. -/
def replayOne (acc : AirportAcc) : List AirportEvent → List Snapshot
  | [] => []
  | e :: rest => mkSnapshot e (accStep acc e) :: replayOne (accStep acc e) rest

/-- Helper: the replay fold leaves the accumulator of an airport in the node
set equal to the accumulator fold over that airport's events. -/
theorem foldl_processEvent_acc (nodes : List String) (a : String) (ha : a ∈ nodes)
    (evts : List AirportEvent) :
    ∀ st : BuildState,
      (evts.foldl (processEvent nodes) st).acc a =
        (evts.filter (fun e => decide (e.airport = a))).foldl accStep (st.acc a) := by
  induction evts with
  | nil => intro st; rfl
  | cons e evts ih =>
    intro st
    rw [List.foldl_cons]
    by_cases he : e.airport = a
    · have hmem : e.airport ∈ nodes := he ▸ ha
      have h1 : (processEvent nodes st e).acc a = accStep (st.acc a) e := by
        simp [processEvent, hmem, he, ha]
      rw [List.filter_cons_of_pos (by simp [he]), List.foldl_cons, ih, h1]
    · have h1 : (processEvent nodes st e).acc a = st.acc a := by
        have hne : ¬ (a = e.airport) := fun hh => he hh.symm
        by_cases hm : e.airport ∈ nodes <;> simp [processEvent, hm, hne]
      rw [List.filter_cons_of_neg (by simp [he]), ih, h1]

/-- Helper: the replay fold appends, to the timeline of an airport in the
node set, exactly the single-airport replay of that airport's events. -/
theorem foldl_processEvent_timelines (nodes : List String) (a : String) (ha : a ∈ nodes)
    (evts : List AirportEvent) :
    ∀ st : BuildState,
      (evts.foldl (processEvent nodes) st).timelines a =
        st.timelines a ++
          replayOne (st.acc a) (evts.filter (fun e => decide (e.airport = a))) := by
  induction evts with
  | nil => intro st; simp [replayOne]
  | cons e evts ih =>
    intro st
    rw [List.foldl_cons]
    by_cases he : e.airport = a
    · have hmem : e.airport ∈ nodes := he ▸ ha
      have ht : (processEvent nodes st e).timelines a =
          st.timelines a ++ [mkSnapshot e (accStep (st.acc a) e)] := by
        simp [processEvent, hmem, he, ha]
      have hacc : (processEvent nodes st e).acc a = accStep (st.acc a) e := by
        simp [processEvent, hmem, he, ha]
      rw [List.filter_cons_of_pos (by simp [he]), ih, ht, hacc, replayOne]
      simp
    · have hne : ¬ (a = e.airport) := fun hh => he hh.symm
      have ht : (processEvent nodes st e).timelines a = st.timelines a := by
        by_cases hm : e.airport ∈ nodes <;> simp [processEvent, hm, hne]
      have hacc : (processEvent nodes st e).acc a = st.acc a := by
        by_cases hm : e.airport ∈ nodes <;> simp [processEvent, hm, hne]
      rw [List.filter_cons_of_neg (by simp [he]), ih, ht, hacc]

/-- Helper: an airport outside the node set never receives a timeline. -/
theorem timeline_empty_of_not_mem (nodes : List String) (flights : List Flight)
    (a : String) (ha : a ∉ nodes) :
    create_event_level_snapshots nodes flights a = [] := by
  unfold create_event_level_snapshots
  generalize (collectEvents flights).mergeSort eventLE = evts
  suffices hsuff : ∀ st : BuildState,
      (evts.foldl (processEvent nodes) st).timelines a = st.timelines a from hsuff initState
  induction evts with
  | nil => intro st; rfl
  | cons e evts ih =>
    intro st
    rw [List.foldl_cons, ih]
    by_cases hm : e.airport ∈ nodes
    · have hne : ¬ (a = e.airport) := fun hh => ha (hh ▸ hm)
      simp [processEvent, hm, hne]
    · simp [processEvent, hm]

/-- Helper: for an airport in the node set, the built timeline is the
single-airport replay of its sorted events from the zero accumulator. -/
theorem timeline_eq_replayOne (nodes : List String) (flights : List Flight) (a : String)
    (ha : a ∈ nodes) :
    create_event_level_snapshots nodes flights a =
      replayOne initAcc
        (((collectEvents flights).mergeSort eventLE).filter
          (fun e => decide (e.airport = a))) := by
  unfold create_event_level_snapshots
  rw [foldl_processEvent_timelines nodes a ha _ initState]
  simp [initState]

/-- Helper: the single-airport replay yields one snapshot per event. -/
theorem replayOne_length (acc : AirportAcc) (l : List AirportEvent) :
    (replayOne acc l).length = l.length := by
  induction l generalizing acc with
  | nil => rfl
  | cons e l ih => simp [replayOne, ih]

/-- Helper: the i-th snapshot of the single-airport replay is built from the
i-th event and the accumulator folded over the events seen so far. -/
theorem replayOne_get (l : List AirportEvent) :
    ∀ (acc : AirportAcc) (i : Nat) (h : i < l.length),
      (replayOne acc l).get ⟨i, by rw [replayOne_length]; exact h⟩ =
        mkSnapshot (l.get ⟨i, h⟩) ((l.take (i + 1)).foldl accStep acc) := by
  induction l with
  | nil => intro acc i h; exact absurd h (Nat.not_lt_zero i)
  | cons e l ih =>
    intro acc i h
    cases i with
    | zero => rfl
    | succ i => exact ih (accStep acc e) i (Nat.lt_of_succ_lt_succ h)

/-- Helper: the accumulator fold realizes the counting and sampling formulas
over the event list it consumed. -/
theorem foldl_accStep_fields (l : List AirportEvent) :
    ∀ acc : AirportAcc,
      (l.foldl accStep acc).total_departures =
        acc.total_departures + l.countP (fun e => decide (e.event_type = .departure)) ∧
      (l.foldl accStep acc).total_arrivals =
        acc.total_arrivals + l.countP (fun e => decide (e.event_type = .arrival)) ∧
      (l.foldl accStep acc).departure_delays =
        acc.departure_delays ++
          (l.filter (fun e => decide (e.event_type = .departure))).filterMap
            AirportEvent.delay ∧
      (l.foldl accStep acc).arrival_delays =
        acc.arrival_delays ++
          (l.filter (fun e => decide (e.event_type = .arrival))).filterMap
            AirportEvent.delay := by
  induction l with
  | nil => intro acc; simp
  | cons e l ih =>
    intro acc
    obtain ⟨ih1, ih2, ih3, ih4⟩ := ih (accStep acc e)
    rw [List.foldl_cons]
    refine ⟨?_, ?_, ?_, ?_⟩
    · rw [ih1]
      cases hty : e.event_type
      · simp [accStep, hty, List.countP_cons]
        omega
      · simp [accStep, hty, List.countP_cons]
    · rw [ih2]
      cases hty : e.event_type
      · simp [accStep, hty, List.countP_cons]
      · simp [accStep, hty, List.countP_cons]
        omega
    · rw [ih3]
      cases hty : e.event_type <;> cases hdel : e.delay <;>
        simp [accStep, hty, hdel, List.filterMap_cons]
    · rw [ih4]
      cases hty : e.event_type <;> cases hdel : e.delay <;>
        simp [accStep, hty, hdel, List.filterMap_cons]

/-- Helper: the sorted global event list, restricted to one airport, is
sorted by timestamp. -/
theorem relevant_sorted (flights : List Flight) (a : String) :
    (((collectEvents flights).mergeSort eventLE).filter
      (fun e => decide (e.airport = a))).Pairwise
        (fun e₁ e₂ => e₁.timestamp ≤ e₂.timestamp) := by
  have hs := @List.sorted_mergeSort AirportEvent eventLE
    (fun x y z hxy hyz => by
      simp only [eventLE, decide_eq_true_eq] at hxy hyz ⊢
      omega)
    (fun x y => by
      simp only [eventLE, Bool.or_eq_true, decide_eq_true_eq]
      omega)
    (collectEvents flights)
  exact (hs.filter _).imp (fun h => by
    simpa [eventLE, decide_eq_true_eq] using h)

/-- C2: after construction, every airport timeline is sorted by instant and
its cumulative departure and arrival counts are non-decreasing from each
snapshot to the next. -/
theorem timeline_sorted_and_counts_monotone (nodes : List String) (flights : List Flight)
    (a : String) (i : Nat)
    (h : i + 1 < (create_event_level_snapshots nodes flights a).length) :
    ((create_event_level_snapshots nodes flights a).get
        ⟨i, Nat.lt_of_succ_lt h⟩).timestamp ≤
      ((create_event_level_snapshots nodes flights a).get ⟨i + 1, h⟩).timestamp ∧
    ((create_event_level_snapshots nodes flights a).get
        ⟨i, Nat.lt_of_succ_lt h⟩).cumulative.total_departures ≤
      ((create_event_level_snapshots nodes flights a).get
        ⟨i + 1, h⟩).cumulative.total_departures ∧
    ((create_event_level_snapshots nodes flights a).get
        ⟨i, Nat.lt_of_succ_lt h⟩).cumulative.total_arrivals ≤
      ((create_event_level_snapshots nodes flights a).get
        ⟨i + 1, h⟩).cumulative.total_arrivals := by
  by_cases ha : a ∈ nodes
  · have htl := timeline_eq_replayOne nodes flights a ha
    set rel := ((collectEvents flights).mergeSort eventLE).filter
      (fun e => decide (e.airport = a)) with hreldef
    have hlen : (create_event_level_snapshots nodes flights a).length = rel.length := by
      rw [htl, replayOne_length]
    have hi1 : i + 1 < rel.length := hlen ▸ h
    have hi : i < rel.length := Nat.lt_of_succ_lt hi1
    have hget : ∀ (j : Nat) (hj : j < rel.length),
        (create_event_level_snapshots nodes flights a).get ⟨j, by omega⟩ =
          mkSnapshot (rel.get ⟨j, hj⟩) ((rel.take (j + 1)).foldl accStep initAcc) := by
      intro j hj
      rw [← replayOne_get rel initAcc j hj]
      exact List.get_of_eq htl _
    rw [hget i hi, hget (i + 1) hi1]
    have hcount : ∀ p : AirportEvent → Bool,
        (rel.take (i + 1)).countP p ≤ (rel.take (i + 2)).countP p := by
      intro p
      have heq : rel.take (i + 1) = (rel.take (i + 2)).take (i + 1) := by
        rw [List.take_take]
        congr 1
        omega
      rw [heq]
      exact (List.take_sublist _ _).countP_le p
    refine ⟨?_, ?_, ?_⟩
    · have hs := List.pairwise_iff_get.mp (relevant_sorted flights a)
        ⟨i, hi⟩ ⟨i + 1, hi1⟩ (by simp)
      simpa [mkSnapshot] using hs
    · have h1 := (foldl_accStep_fields (rel.take (i + 1)) initAcc).1
      have h2 := (foldl_accStep_fields (rel.take (i + 2)) initAcc).1
      simp only [mkSnapshot, computeCumulative]
      rw [h1, h2]
      have := hcount (fun e => decide (e.event_type = .departure))
      simp [initAcc]
      omega
    · have h1 := (foldl_accStep_fields (rel.take (i + 1)) initAcc).2.1
      have h2 := (foldl_accStep_fields (rel.take (i + 2)) initAcc).2.1
      simp only [mkSnapshot, computeCumulative]
      rw [h1, h2]
      have := hcount (fun e => decide (e.event_type = .arrival))
      simp [initAcc]
      omega
  · rw [timeline_empty_of_not_mem nodes flights a ha] at h
    exact absurd h (by simp)

/-- First witness flight: ATL to LGA, departing 36300 and arriving 44400. -/
def witnessFlightA : Flight :=
  ⟨"WN1_2026-01-01_ATL_LGA", "ATL", "LGA", some 36000, some 36300, some 43200,
    some 44400, some 5, some 20⟩

/-- Second witness flight: LGA to SLC, departing 46800, arrival not yet
recorded. -/
def witnessFlightB : Flight :=
  ⟨"WN2_2026-01-01_LGA_SLC", "LGA", "SLC", some 46800, some 46800, some 60000,
    none, some 0, none⟩

/-- Witness for C2 at the two-event LGA timeline of a concrete input. -/
theorem timeline_sorted_and_counts_monotone_witness :
    ∃ h : 0 + 1 < ((create_event_level_snapshots ["ATL", "LGA", "SLC"]
        [witnessFlightA, witnessFlightB]) "LGA").length,
      (((create_event_level_snapshots ["ATL", "LGA", "SLC"]
          [witnessFlightA, witnessFlightB]) "LGA").get
            ⟨0, Nat.lt_of_succ_lt h⟩).timestamp ≤
        (((create_event_level_snapshots ["ATL", "LGA", "SLC"]
          [witnessFlightA, witnessFlightB]) "LGA").get ⟨0 + 1, h⟩).timestamp := by
  have hlt : 0 + 1 < ((create_event_level_snapshots ["ATL", "LGA", "SLC"]
      [witnessFlightA, witnessFlightB]) "LGA").length := by
    simp [create_event_level_snapshots, collectEvents, eventsOfFlight, witnessFlightA,
      witnessFlightB, Flight.bestDeparture, Flight.bestArrival, pyOr, List.mergeSort,
      List.merge, eventLE, processEvent, initState, accStep, mkSnapshot]
  exact ⟨hlt, (timeline_sorted_and_counts_monotone ["ATL", "LGA", "SLC"]
    [witnessFlightA, witnessFlightB] "LGA" 0 hlt).1⟩

/-- C4 amended: the cumulative mapping of every snapshot realizes the
claimed formulas over the events seen so far at that airport, each value
rounded to two decimal places before storage: each average is the sum of
delay samples over the number of delay-carrying events of that kind (0 with
no samples) rounded to two decimals, and each on-time percentage is the
number of delay-carrying events with absolute delay under 15 over the total
event count of that kind, times 100 (0 when that count is 0), rounded to
two decimals — events without a delay count in the denominator only. -/
theorem snapshot_cumulative_formulas (nodes : List String) (flights : List Flight)
    (a : String) (i : Nat) (ha : a ∈ nodes)
    (h : i < (create_event_level_snapshots nodes flights a).length) :
    ((create_event_level_snapshots nodes flights a).get ⟨i, h⟩).cumulative =
      (let pre := (((collectEvents flights).mergeSort eventLE).filter
          (fun e => decide (e.airport = a))).take (i + 1)
       let depSamples := (pre.filter
           (fun e => decide (e.event_type = .departure))).filterMap AirportEvent.delay
       let arrSamples := (pre.filter
           (fun e => decide (e.event_type = .arrival))).filterMap AirportEvent.delay
       let nDep := pre.countP (fun e => decide (e.event_type = .departure))
       let nArr := pre.countP (fun e => decide (e.event_type = .arrival))
       { total_departures := nDep
         total_arrivals := nArr
         avg_departure_delay := round2
           (if depSamples = [] then 0 else (depSamples.sum : Rat) / (depSamples.length : Rat))
         avg_arrival_delay := round2
           (if arrSamples = [] then 0 else (arrSamples.sum : Rat) / (arrSamples.length : Rat))
         on_time_departure_pct := round2
           (if nDep = 0 then 0
            else ((depSamples.countP (fun d => decide (|d| < 15)) : Rat) / (nDep : Rat)) * 100)
         on_time_arrival_pct := round2
           (if nArr = 0 then 0
            else ((arrSamples.countP (fun d => decide (|d| < 15)) : Rat) /
              (nArr : Rat)) * 100) } : Cumulative) := by
  have htl := timeline_eq_replayOne nodes flights a ha
  set rel := ((collectEvents flights).mergeSort eventLE).filter
    (fun e => decide (e.airport = a)) with hreldef
  have hlen : (create_event_level_snapshots nodes flights a).length = rel.length := by
    rw [htl, replayOne_length]
  have hi : i < rel.length := hlen ▸ h
  have hget : (create_event_level_snapshots nodes flights a).get ⟨i, h⟩ =
      mkSnapshot (rel.get ⟨i, hi⟩) ((rel.take (i + 1)).foldl accStep initAcc) := by
    rw [← replayOne_get rel initAcc i hi]
    exact List.get_of_eq htl _
  rw [hget]
  obtain ⟨h1, h2, h3, h4⟩ := foldl_accStep_fields (rel.take (i + 1)) initAcc
  simp only [mkSnapshot, computeCumulative, Cumulative.mk.injEq]
  rw [h1, h2, h3, h4]
  simp only [initAcc, Nat.zero_add, List.nil_append]
  refine ⟨trivial, trivial, by simp [avgOf], by simp [avgOf], ?_, ?_⟩
  · by_cases h0 : (rel.take (i + 1)).countP
        (fun e => decide (e.event_type = .departure)) = 0
    · simp [pctOf, h0]
    · simp [pctOf, onTimeCount, h0, Nat.pos_of_ne_zero h0]
  · by_cases h0 : (rel.take (i + 1)).countP
        (fun e => decide (e.event_type = .arrival)) = 0
    · simp [pctOf, h0]
    · simp [pctOf, onTimeCount, h0, Nat.pos_of_ne_zero h0]

/-- Witness for C4 at the first LGA snapshot of a concrete input. -/
theorem snapshot_cumulative_formulas_witness :
    ∃ h : 0 < ((create_event_level_snapshots ["ATL", "LGA", "SLC"]
        [witnessFlightA, witnessFlightB]) "LGA").length,
      (((create_event_level_snapshots ["ATL", "LGA", "SLC"]
          [witnessFlightA, witnessFlightB]) "LGA").get ⟨0, h⟩).cumulative =
        (let pre := (((collectEvents [witnessFlightA, witnessFlightB]).mergeSort
            eventLE).filter (fun e => decide (e.airport = "LGA"))).take (0 + 1)
         let depSamples := (pre.filter
             (fun e => decide (e.event_type = .departure))).filterMap AirportEvent.delay
         let arrSamples := (pre.filter
             (fun e => decide (e.event_type = .arrival))).filterMap AirportEvent.delay
         let nDep := pre.countP (fun e => decide (e.event_type = .departure))
         let nArr := pre.countP (fun e => decide (e.event_type = .arrival))
         { total_departures := nDep
           total_arrivals := nArr
           avg_departure_delay := round2
             (if depSamples = [] then 0 else (depSamples.sum : Rat) / (depSamples.length : Rat))
           avg_arrival_delay := round2
             (if arrSamples = [] then 0 else (arrSamples.sum : Rat) / (arrSamples.length : Rat))
           on_time_departure_pct := round2
             (if nDep = 0 then 0
              else ((depSamples.countP (fun d => decide (|d| < 15)) : Rat) / (nDep : Rat)) * 100)
           on_time_arrival_pct := round2
             (if nArr = 0 then 0
              else ((arrSamples.countP (fun d => decide (|d| < 15)) : Rat) /
                (nArr : Rat)) * 100) } : Cumulative) := by
  have hlt : 0 < ((create_event_level_snapshots ["ATL", "LGA", "SLC"]
      [witnessFlightA, witnessFlightB]) "LGA").length := by
    simp [create_event_level_snapshots, collectEvents, eventsOfFlight, witnessFlightA,
      witnessFlightB, Flight.bestDeparture, Flight.bestArrival, pyOr, List.mergeSort,
      List.merge, eventLE, processEvent, initState, accStep, mkSnapshot]
  exact ⟨hlt, snapshot_cumulative_formulas ["ATL", "LGA", "SLC"]
    [witnessFlightA, witnessFlightB] "LGA" 0 (by decide) hlt⟩

/-- Helper: on a sorted time array, the length of the prefix at-or-before an
instant equals the number of elements at-or-before it. -/
theorem takeWhile_length_eq_countP_of_sorted (t : Int) (l : List Int)
    (hp : l.Pairwise (· ≤ ·)) :
    (l.takeWhile (fun x => decide (x ≤ t))).length =
      l.countP (fun x => decide (x ≤ t)) := by
  induction l with
  | nil => rfl
  | cons x rest ih =>
    rcases List.pairwise_cons.mp hp with ⟨hrel, hrest⟩
    by_cases hx : x ≤ t
    · simp [List.takeWhile_cons, List.countP_cons, hx, ih hrest]
    · have hz : rest.countP (fun y => decide (y ≤ t)) = 0 := by
        rw [List.countP_eq_zero]
        intro y hy
        simp only [decide_eq_true_eq]
        have := hrel y hy
        omega
      simp [List.takeWhile_cons, List.countP_cons, hx, hz]

/-- Helper: correctness of the two-pointer sweep.  If the sample instants
are non-decreasing, each sorted time array is split into a consumed prefix
(every element at-or-before every upcoming sample) and the unconsumed
suffix, then the loop emits at every sample instant exactly the count of
events at-or-before it. -/
theorem volumeLoop_spec (samples : List Int) :
    ∀ dPre ld aPre la : List Int,
      samples.Pairwise (· ≤ ·) →
      (dPre ++ ld).Pairwise (· ≤ ·) →
      (aPre ++ la).Pairwise (· ≤ ·) →
      (∀ x ∈ dPre, ∀ t ∈ samples, x ≤ t) →
      (∀ x ∈ aPre, ∀ t ∈ samples, x ≤ t) →
      volumeLoop samples (dPre.length, ld) (aPre.length, la) =
        samples.map (fun t =>
          (t, (dPre ++ ld).countP (fun x => decide (x ≤ t)),
            (aPre ++ la).countP (fun x => decide (x ≤ t)))) := by
  induction samples with
  | nil => intro _ _ _ _ _ _ _ _ _; rfl
  | cons t ts ih =>
    intro dPre ld aPre la hs hd ha hdPre haPre
    rcases List.pairwise_cons.mp hs with ⟨hts, hts'⟩
    have hdld : ld.Pairwise (fun x y => x ≤ y) := (List.pairwise_append.mp hd).2.1
    have hala : la.Pairwise (fun x y => x ≤ y) := (List.pairwise_append.mp ha).2.1
    have hdall : dPre.countP (fun x => decide (x ≤ t)) = dPre.length :=
      List.countP_eq_length.mpr (fun x hx => by
        simp only [decide_eq_true_eq]
        exact hdPre x hx t (List.mem_cons_self t ts))
    have haall : aPre.countP (fun x => decide (x ≤ t)) = aPre.length :=
      List.countP_eq_length.mpr (fun x hx => by
        simp only [decide_eq_true_eq]
        exact haPre x hx t (List.mem_cons_self t ts))
    have hdcnt : dPre.length + (ld.takeWhile (fun x => decide (x ≤ t))).length =
        (dPre ++ ld).countP (fun x => decide (x ≤ t)) := by
      rw [List.countP_append, takeWhile_length_eq_countP_of_sorted t ld hdld]
      omega
    have hacnt : aPre.length + (la.takeWhile (fun x => decide (x ≤ t))).length =
        (aPre ++ la).countP (fun x => decide (x ≤ t)) := by
      rw [List.countP_append, takeWhile_length_eq_countP_of_sorted t la hala]
      omega
    have hdsplit : dPre ++ ld =
        (dPre ++ ld.takeWhile (fun x => decide (x ≤ t))) ++
          ld.dropWhile (fun x => decide (x ≤ t)) := by
      rw [List.append_assoc, List.takeWhile_append_dropWhile]
    have hasplit : aPre ++ la =
        (aPre ++ la.takeWhile (fun x => decide (x ≤ t))) ++
          la.dropWhile (fun x => decide (x ≤ t)) := by
      rw [List.append_assoc, List.takeWhile_append_dropWhile]
    have hdPre' : ∀ x ∈ dPre ++ ld.takeWhile (fun x => decide (x ≤ t)),
        ∀ u ∈ ts, x ≤ u := by
      intro x hx u hu
      rcases List.mem_append.mp hx with hx | hx
      · exact hdPre x hx u (List.mem_cons_of_mem t hu)
      · have hxt : x ≤ t := by
          have := List.mem_takeWhile_imp hx
          simpa using this
        exact le_trans hxt (hts u hu)
    have haPre' : ∀ x ∈ aPre ++ la.takeWhile (fun x => decide (x ≤ t)),
        ∀ u ∈ ts, x ≤ u := by
      intro x hx u hu
      rcases List.mem_append.mp hx with hx | hx
      · exact haPre x hx u (List.mem_cons_of_mem t hu)
      · have hxt : x ≤ t := by
          have := List.mem_takeWhile_imp hx
          simpa using this
        exact le_trans hxt (hts u hu)
    have hih := ih (dPre ++ ld.takeWhile (fun x => decide (x ≤ t)))
      (ld.dropWhile (fun x => decide (x ≤ t)))
      (aPre ++ la.takeWhile (fun x => decide (x ≤ t)))
      (la.dropWhile (fun x => decide (x ≤ t)))
      hts' (hdsplit ▸ hd) (hasplit ▸ ha) hdPre' haPre'
    simp only [List.length_append] at hih
    simp only [volumeLoop, advanceCursor, List.map_cons]
    rw [hih, ← hdsplit, ← hasplit, hdcnt, hacnt]

/-- Helper: the sample instants of the volume timeline are non-decreasing. -/
theorem sampleInstants_sorted (start stop step : Int) :
    (sampleInstants start stop step).Pairwise (fun x y => x ≤ y) := by
  unfold sampleInstants
  split
  · next hc =>
    refine (List.pairwise_lt_range _).map _ ?_
    intro i j hij
    have h1 : Int.ofNat i ≤ Int.ofNat j := Int.ofNat_le.mpr (Nat.le_of_lt hij)
    have h2 := mul_le_mul_of_nonneg_left h1 (le_of_lt hc.1)
    omega
  · exact List.Pairwise.nil

/-- C7: for every positive step, the two-pointer volume timeline emits, at
each sample instant from start in increments of step while at-or-before the
stop instant, exactly the naive cumulative counts: the number of
best-available departure (resp. arrival) instants at-or-before the sample
instant, with an event exactly at the sample instant included. -/
theorem volume_timeline_refines_naive (edges : List Flight) (start stop step : Int)
    (hstep : 0 < step) :
    get_flight_volume_timeline edges start stop step =
      (sampleInstants start stop step).map (fun t =>
        (t, (edges.filterMap Flight.bestDeparture).countP (fun x => decide (x ≤ t)),
          (edges.filterMap Flight.bestArrival).countP (fun x => decide (x ≤ t)))) := by
  have _hkeep := hstep
  unfold get_flight_volume_timeline
  have hsort : ∀ l : List Int, (l.mergeSort intLE).Pairwise (fun x y => x ≤ y) := by
    intro l
    refine (@List.sorted_mergeSort Int intLE
      (fun x y z hxy hyz => by
        simp only [intLE, decide_eq_true_eq] at hxy hyz ⊢
        omega)
      (fun x y => by
        simp only [intLE, Bool.or_eq_true, decide_eq_true_eq]
        omega) l).imp ?_
    intro x y hxy
    simpa [intLE] using hxy
  have h0 := volumeLoop_spec (sampleInstants start stop step)
    [] ((edges.filterMap Flight.bestDeparture).mergeSort intLE)
    [] ((edges.filterMap Flight.bestArrival).mergeSort intLE)
    (sampleInstants_sorted start stop step)
    (by simpa using hsort (edges.filterMap Flight.bestDeparture))
    (by simpa using hsort (edges.filterMap Flight.bestArrival))
    (by intro x hx; cases hx)
    (by intro x hx; cases hx)
  simp only [List.nil_append, List.length_nil] at h0
  rw [h0]
  refine List.map_congr_left ?_
  intro t _
  rw [List.Perm.countP_eq _ (List.mergeSort_perm _ intLE),
    List.Perm.countP_eq _ (List.mergeSort_perm _ intLE)]

/-- Witness for C7 at a concrete pair of flights and an hourly step. -/
theorem volume_timeline_refines_naive_witness :
    (0 : Int) < 3600 ∧
    get_flight_volume_timeline [witnessFlightA, witnessFlightB] 36000 50000 3600 =
      (sampleInstants 36000 50000 3600).map (fun t =>
        (t, ([witnessFlightA, witnessFlightB].filterMap Flight.bestDeparture).countP
            (fun x => decide (x ≤ t)),
          ([witnessFlightA, witnessFlightB].filterMap Flight.bestArrival).countP
            (fun x => decide (x ≤ t)))) :=
  ⟨by decide, volume_timeline_refines_naive [witnessFlightA, witnessFlightB]
    36000 50000 3600 (by decide)⟩

/-- A stub library parser that always returns a naive datetime, used to
witness the UTC-stamping branch. -/
def fromIsoNaive : String → Option PyDateTime :=
  fun _ => some ⟨0, none⟩

/-- Witness for C9: a token parsed without an offset comes back stamped as
UTC, hence timezone-aware. -/
theorem temporal_parser_total_and_utc_witness :
    parse_iso8601_datetime fromIsoNaive "2026-01-06T15:00:00" = some ⟨0, some 0⟩ ∧
    (PyDateTime.mk 0 (some 0)).tzOffsetMinutes.isSome := by
  have h := temporal_parser_total_and_utc fromIsoNaive "2026-01-06T15:00:00"
    ⟨0, some 0⟩ ⟨0, none⟩
  have hs : pyStrip "2026-01-06T15:00:00" ≠ "" := by decide
  have hp : parse_iso8601_datetime fromIsoNaive "2026-01-06T15:00:00" =
      some ⟨0, some 0⟩ := h.2.2.2 hs rfl rfl
  exact ⟨hp, h.1 hp⟩

/-- Witness for C10: a flight 15 minutes 59 seconds late gets delay 15, and
an absent instant yields the absent delay. -/
theorem delay_truncates_toward_zero_witness :
    delayMinutes (some 0) (some 959) = some 15 ∧
    (15 : Int).natAbs = ((959 : Int) - 0).natAbs / 60 ∧
    delayMinutes (some 0) none = none := by
  have h := delay_truncates_toward_zero 0 959 15
  exact ⟨by decide, (h.1 (by decide)).1, h.2.2.1⟩

/-- First of three ATL departures used by the C4 counterexample, delay 0. -/
def delayFlightA : Flight :=
  ⟨"WN1_2026-01-01_ATL_LGA", "ATL", "LGA", some 100, some 100, none, none, some 0, none⟩

/-- Second of three ATL departures used by the C4 counterexample, delay 0. -/
def delayFlightB : Flight :=
  ⟨"WN2_2026-01-01_ATL_LGA", "ATL", "LGA", some 200, some 200, none, none, some 0, none⟩

/-- Third of three ATL departures used by the C4 counterexample, delay 1. -/
def delayFlightC : Flight :=
  ⟨"WN3_2026-01-01_ATL_LGA", "ATL", "LGA", some 300, some 300, none, none, some 1, none⟩

/-- C4 counterexample: the claim says each stored cumulative average equals
the sum of the delay samples seen so far divided by the number of
delay-carrying events; after three departures with delays 0, 0 and 1 the
builder stores 0.33 (the two-decimal rounding of build_graph.py lines
244-247), which is not the claimed exact quotient 1/3. -/
theorem snapshot_average_rounding_counterexample :
    ((create_event_level_snapshots ["ATL", "LGA"]
        [delayFlightA, delayFlightB, delayFlightC]) "ATL").map
      (fun s => s.cumulative.avg_departure_delay) = [0, 0, 33 / 100] ∧
    ((0 : Rat) + 0 + 1) / 3 ≠ 33 / 100 := by
  constructor
  · simp [create_event_level_snapshots, collectEvents, eventsOfFlight, delayFlightA,
      delayFlightB, delayFlightC, Flight.bestDeparture, Flight.bestArrival, pyOr,
      List.mergeSort, List.merge, eventLE, processEvent, initState, accStep, mkSnapshot,
      computeCumulative, avgOf, pctOf, onTimeCount, initAcc]
    norm_num [round2, roundHalfEven]
  · norm_num
